import Mathlib

/-!
Verification of the TumbleBit LibreSSL wrapper module
(`tumblebit/__init__.py`): the big-number codec helpers
(`BN_num_bytes`, `BNToBin`, `BinToBN`), the error-check hook
(`_check_res_void_p`), and the native big-number operations the module
declares (`BN_mod_inverse`, the `BN_BLINDING` conversion pair).

Big numbers (`BIGNUM`) are modelled as natural numbers (their
magnitude); byte strings as `List Nat` with every element below 256.
Raw results of pointer-returning native calls are modelled as
`Option Nat`: `Option.none` is NULL — which ctypes, under
`restype = ctypes.c_void_p`, delivers to the errcheck hook as the
Python `None` object — and `some v` is a valid pointer to a BIGNUM
currently holding the value `v`. Because the hook compares that value
with the integer 0 (`val == 0`), and `None == 0` is `False` in Python
while a valid address is nonzero, the hook's raise is dead code: NULL
results pass through silently as NULL `c_void_p` handles (`CVoidP`
below).
-/

namespace Tumblebit

/-- Models the bit length computed by the native `BN_num_bits`:
number of binary digits of the magnitude, with `BN_num_bits 0 = 0`.
Structural fuel recursion keeps the definition kernel-evaluable. -/
def BN_num_bits_aux : Nat → Nat → Nat
  | 0, _ => 0
  | fuel + 1, n => if n = 0 then 0 else BN_num_bits_aux fuel (n / 2) + 1

/-- Bit length of a big number (semantics of the native `BN_num_bits`). -/
def BN_num_bits (n : Nat) : Nat :=
  BN_num_bits_aux n n

/-- Source `BN_num_bytes` (lines 334-336):
`return (_ssl.BN_num_bits(bn) + 7) // 8`. -/
def BN_num_bytes (n : Nat) : Nat :=
  (BN_num_bits n + 7) / 8

/-- Models the native `BN_bn2bin`: the minimal big-endian byte string of
the magnitude (empty for zero). Fuel recursion on `n` itself. -/
def bn2binAux : Nat → Nat → List Nat
  | 0, _ => []
  | fuel + 1, n => if n = 0 then [] else bn2binAux fuel (n / 256) ++ [n % 256]

/-- Minimal big-endian byte string written by the native `BN_bn2bin`. -/
def bn2bin (n : Nat) : List Nat :=
  bn2binAux n n

/-- Models the native `BN_bin2bn`: parse a byte string as a big-endian
unsigned magnitude (most significant byte first). -/
def bin2bn (s : List Nat) : Nat :=
  s.foldl (fun acc b => 256 * acc + b) 0

/- ### Characterisation of the bit-length model -/

theorem BN_num_bits_aux_lt (fuel n : Nat) (h : n ≤ fuel) :
    n < 2 ^ BN_num_bits_aux fuel n := by
  induction fuel generalizing n with
  | zero =>
    simp [BN_num_bits_aux]
    omega
  | succ fuel ih =>
    by_cases hn : n = 0
    · simp [BN_num_bits_aux, hn]
    · have hdiv : n / 2 ≤ fuel := by omega
      have := ih (n / 2) hdiv
      simp only [BN_num_bits_aux, hn, if_false]
      rw [pow_succ]
      omega

theorem BN_num_bits_aux_min (fuel n k : Nat) (h : n ≤ fuel)
    (hk : n < 2 ^ k) : BN_num_bits_aux fuel n ≤ k := by
  induction fuel generalizing n k with
  | zero => simp [BN_num_bits_aux]
  | succ fuel ih =>
    by_cases hn : n = 0
    · simp [BN_num_bits_aux, hn]
    · simp only [BN_num_bits_aux, hn, if_false]
      cases k with
      | zero =>
        simp at hk
        omega
      | succ k =>
        have hdiv : n / 2 ≤ fuel := by omega
        have hk2 : n / 2 < 2 ^ k := by
          rw [pow_succ] at hk
          omega
        have := ih (n / 2) k hdiv hk2
        omega

theorem lt_two_pow_num_bits (n : Nat) : n < 2 ^ BN_num_bits n :=
  BN_num_bits_aux_lt n n (Nat.le_refl n)

theorem num_bits_min (n k : Nat) (hk : n < 2 ^ k) : BN_num_bits n ≤ k :=
  BN_num_bits_aux_min n n k (Nat.le_refl n) hk

theorem lt_pow_num_bytes (n : Nat) : n < 256 ^ BN_num_bytes n := by
  have h1 : n < 2 ^ BN_num_bits n := lt_two_pow_num_bits n
  have h2 : BN_num_bits n ≤ 8 * BN_num_bytes n := by
    unfold BN_num_bytes
    omega
  calc n < 2 ^ BN_num_bits n := h1
    _ ≤ 2 ^ (8 * BN_num_bytes n) := Nat.pow_le_pow_right (by omega) h2
    _ = 256 ^ BN_num_bytes n := by
        rw [show (256 : Nat) = 2 ^ 8 from rfl, ← pow_mul]

theorem num_bytes_min (n d : Nat) (hd : n < 256 ^ d) : BN_num_bytes n ≤ d := by
  have h1 : n < 2 ^ (8 * d) := by
    calc n < 256 ^ d := hd
      _ = 2 ^ (8 * d) := by
          rw [show (256 : Nat) = 2 ^ 8 from rfl, ← pow_mul]
  have h2 : BN_num_bits n ≤ 8 * d := num_bits_min n (8 * d) h1
  unfold BN_num_bytes
  omega

/- ### Properties of the byte conversions -/

theorem bin2bn_append_single (l : List Nat) (d : Nat) :
    bin2bn (l ++ [d]) = 256 * bin2bn l + d := by
  unfold bin2bn
  rw [List.foldl_append]
  rfl

theorem bin2bn_bn2binAux (fuel n : Nat) (h : n ≤ fuel) :
    bin2bn (bn2binAux fuel n) = n := by
  induction fuel generalizing n with
  | zero =>
    have : n = 0 := by omega
    simp [bn2binAux, this, bin2bn]
  | succ fuel ih =>
    by_cases hn : n = 0
    · simp [bn2binAux, hn, bin2bn]
    · simp only [bn2binAux, hn, if_false]
      rw [bin2bn_append_single, ih (n / 256) (by omega)]
      omega

theorem bin2bn_bn2bin (n : Nat) : bin2bn (bn2bin n) = n :=
  bin2bn_bn2binAux n n (Nat.le_refl n)

theorem bn2binAux_lt (fuel n : Nat) (h : n ≤ fuel) :
    n < 256 ^ (bn2binAux fuel n).length := by
  induction fuel generalizing n with
  | zero =>
    simp [bn2binAux]
    omega
  | succ fuel ih =>
    by_cases hn : n = 0
    · simp [bn2binAux, hn]
    · simp only [bn2binAux, hn, if_false, List.length_append,
        List.length_singleton]
      have := ih (n / 256) (by omega)
      rw [pow_succ]
      omega

theorem bn2binAux_min (fuel n d : Nat) (h : n ≤ fuel)
    (hd : n < 256 ^ d) : (bn2binAux fuel n).length ≤ d := by
  induction fuel generalizing n d with
  | zero => simp [bn2binAux]
  | succ fuel ih =>
    by_cases hn : n = 0
    · simp [bn2binAux, hn]
    · simp only [bn2binAux, hn, if_false, List.length_append,
        List.length_singleton]
      cases d with
      | zero =>
        simp at hd
        omega
      | succ d =>
        have hd2 : n / 256 < 256 ^ d := by
          rw [pow_succ] at hd
          omega
        have := ih (n / 256) d (by omega) hd2
        omega

theorem length_bn2bin (n : Nat) : (bn2bin n).length = BN_num_bytes n := by
  apply Nat.le_antisymm
  · exact bn2binAux_min n n (BN_num_bytes n) (Nat.le_refl n) (lt_pow_num_bytes n)
  · exact num_bytes_min n (bn2bin n).length (bn2binAux_lt n n (Nat.le_refl n))

theorem bn2bin_eq_nil_iff (n : Nat) : bn2bin n = [] ↔ n = 0 := by
  constructor
  · intro h
    have := bin2bn_bn2bin n
    rw [h] at this
    simpa [bin2bn] using this.symm
  · intro h
    simp [h, bn2bin, bn2binAux]

theorem bin2bn_replicate_zero_append (k : Nat) (l : List Nat) :
    bin2bn (List.replicate k 0 ++ l) = bin2bn l := by
  induction k with
  | zero => simp
  | succ k ih =>
    simpa [List.replicate_succ, bin2bn] using ih

/-- Big-endian parse agrees with little-endian digit semantics:
the parse of `s` is the base-256 value of the reversed digit list. -/
theorem bin2bn_eq_ofDigits (s : List Nat) :
    bin2bn s = Nat.ofDigits 256 s.reverse := by
  suffices h : ∀ (s : List Nat) (a : Nat),
      List.foldl (fun acc b => 256 * acc + b) a s =
        a * 256 ^ s.length + Nat.ofDigits 256 s.reverse by
    simpa [bin2bn] using h s 0
  intro s
  induction s with
  | nil => simp [Nat.ofDigits]
  | cons d t ih =>
    intro a
    simp only [List.foldl_cons, List.reverse_cons, List.length_cons]
    rw [ih (256 * a + d), Nat.ofDigits_append]
    simp [Nat.ofDigits, List.length_reverse, pow_succ]
    ring

/- ### The fixed-width encoder `BNToBin` (source lines 339-371) -/

/-- Outcome of the Python function `BNToBin`. `bytes` is a returned byte
string, `pyNone` is the Python value `None`, and `oobWrite` marks the
run in which `ctypes.byref(data, offset)` is formed with a negative
`offset` and handed to the native `BN_bn2bin`, which then writes the
magnitude before the start of the buffer: an out-of-bounds write, after
which the Python-level result is undefined. -/
inductive PyBytesResult where
  | bytes (bs : List Nat)
  | pyNone
  | oobWrite
deriving DecidableEq, Repr

/-- Models writing `src` into buffer `buf` starting at byte `off`
(the effect of `BN_bn2bin(bn, ctypes.byref(data, offset))` when
`offset` is in range). -/
def writeBytesAt (buf : List Nat) (off : Nat) (src : List Nat) : List Nat :=
  buf.take off ++ src ++ buf.drop (off + src.length)

/-- Models the loop `for i in range(offset): data[i] = 0`
(source lines 368-369): the first `k` bytes are overwritten with zero. -/
def zeroFirstBytes (l : List Nat) (k : Nat) : List Nat :=
  (l.take k).map (fun _ => 0) ++ l.drop k

/-- Source `BNToBin(bn, size)` (lines 339-371).

`bn` is the Python argument: `Option.none` is Python `None`, `some n` a
BIGNUM holding `n`. `writeFails` injects the failure case in which the
native `BN_bn2bin` reports 0 bytes written; on a successful call
`BN_bn2bin` returns the byte count of the magnitude,
`(bn2bin n).length`, which is 0 exactly when `n = 0`.

Line by line: `if bn is None: return None`; the buffer
`data = ctypes.create_string_buffer(size)` is zero-initialised;
`offset = size - BN_num_bytes(bn)` is computed in `Int` because Python
subtraction does not truncate at zero; when `offset` is negative the
`BN_bn2bin` call writes out of bounds (`oobWrite`); `if ret == 0:
return None`; then the first `offset` bytes are zeroed and
`data.raw[:size]` is returned. -/
def BNToBin (writeFails : Bool) (bn : Option Nat) (size : Nat) :
    PyBytesResult :=
  match bn with
  | Option.none => PyBytesResult.pyNone
  | some n =>
    let offset : Int := (size : Int) - (BN_num_bytes n : Int)
    if offset < 0 then PyBytesResult.oobWrite
    else
      let off := offset.toNat
      let data := writeBytesAt (List.replicate size 0) off (bn2bin n)
      let ret := if writeFails then 0 else (bn2bin n).length
      if ret = 0 then PyBytesResult.pyNone
      else PyBytesResult.bytes ((zeroFirstBytes data off).take size)

/- ### The decoder `BinToBN` and the error-check hook -/

/-- Source `LibreSSLException` (lines 61-65): the one exception type the
module raises for native-layer failures, carrying the engine error code
and a diagnostic message. -/
structure LibreSSLException where
  errno : Nat
  msg : String
deriving DecidableEq, Repr

/-- State of the engine error queue read by `ERR_get_error` and
`ERR_error_string_n` inside `_check_res_void_p`. -/
structure SSLErrorState where
  errno : Nat
  errmsg : String
deriving DecidableEq, Repr

/-- A `ctypes.c_void_p` object, as returned by the errcheck hook.
`ptr Option.none` is a NULL pointer (`c_void_p(None)`), `ptr (some v)`
a pointer to a BIGNUM currently holding `v`. As a Python object a
`c_void_p` is never the `None` object, even when it is NULL. -/
structure CVoidP where
  ptr : Option Nat
deriving DecidableEq, Repr

/-- The Python test `val == 0` of the hook (source line 72), evaluated
on the values ctypes actually delivers under `restype = c_void_p`:
a NULL native result arrives as the Python `None` object, and
`None == 0` is `False`; a non-NULL result arrives as its address, a
nonzero integer, also not equal to 0 (`some v` here carries the
referent BIGNUM value, but the address the test sees is nonzero
whenever the pointer is valid). The test is therefore false on every
raw result a call wrapped by this module can produce. -/
def pyEqZero (val : Option Nat) : Bool :=
  match val with
  | Option.none => false
  | some _ => false

/-- Source `_check_res_void_p(val, func, args)` (lines 70-79), the
`errcheck` hook installed on every pointer-returning native call.
Every such call is declared with `restype = ctypes.c_void_p`, so `val`
reaches the hook as Python `None` for NULL (modelled `Option.none`) or
as a nonzero address for a valid pointer (modelled `some v`, `v` the
referent value). The guard `if val == 0` is false in both cases, so
the `raise LibreSSLException(...)` on line 77 is dead code and the
hook returns `ctypes.c_void_p(val)` — for NULL, a silent NULL handle.
(Had the guard ever fired, the message construction
`','.join(args)` on line 76 would itself raise `TypeError` for any
call whose ctypes arguments are not strings.) The raise branch is kept
in the model, guarded by the faithful `pyEqZero` test. -/
def _check_res_void_p (st : SSLErrorState) (fname : String)
    (args : List String) (val : Option Nat) :
    Except LibreSSLException CVoidP :=
  if pyEqZero val then
    Except.error
      ⟨st.errno,
        fname ++ "(" ++ String.intercalate "," args ++ "): " ++ st.errmsg⟩
  else
    Except.ok (CVoidP.mk val)

/-- The Python identity test `ret is None` (source line 384), evaluated
on what the errcheck hook actually returns: a `c_void_p` object, which
is never the `None` object (not even `c_void_p(None)`). The test is
always false. -/
def pyIsNone (_ret : CVoidP) : Bool :=
  false

/-- Source `BinToBN(s)` (lines 373-387). `newFails` injects a NULL
result from `BN_new` (allocation failure), `bin2bnFails` a NULL result
from `BN_bin2bn` (allocation/parse failure); both NULLs pass through
the errcheck hook silently (see `_check_res_void_p`). On the success
path `BN_new` yields a fresh BIGNUM holding 0 and
`BN_bin2bn(s, len(s), bn)` fills it with the parsed magnitude
`bin2bn s` and returns the same pointer, so `return bn` (line 387)
returns a handle to the value `bin2bn s`. When `BN_new` returned NULL,
`bn` stays a NULL handle (`BN_bin2bn` given a NULL target allocates
its own result, which the function discards). When `BN_bin2bn` fails,
`bn` still holds the untouched fresh 0 (a stale handle). The
`Except.error` propagation arms mirror Python exception propagation
and are unreachable, as is the `if ret is None: return None` branch
(kept via the faithful `pyIsNone` test). -/
def BinToBN (st : SSLErrorState) (newFails bin2bnFails : Bool)
    (s : List Nat) : Except LibreSSLException (Option CVoidP) :=
  match _check_res_void_p st "BN_new" []
      (if newFails then Option.none else some 0) with
  | Except.error e => Except.error e
  | Except.ok bn =>
    let bnAfter : CVoidP :=
      match bn.ptr with
      | Option.none => CVoidP.mk Option.none
      | some z =>
        if bin2bnFails then CVoidP.mk (some z)
        else CVoidP.mk (some (bin2bn s))
    match _check_res_void_p st "BN_bin2bn" ["s", "len(s)", "bn"]
        (if bin2bnFails then Option.none else some (bin2bn s)) with
    | Except.error e => Except.error e
    | Except.ok ret =>
      if pyIsNone ret then Except.ok Option.none
      else Except.ok (some bnAfter)

theorem BinToBN_success (st : SSLErrorState) (s : List Nat) :
    BinToBN st false false s =
      Except.ok (some (CVoidP.mk (some (bin2bn s)))) :=
  rfl

/- ### Modular inverse (declaration at source lines 165-168) -/

/-- Modelled from the spec: the body of the native `BN_mod_inverse` is
in LibreSSL, not in this repository; only its declaration (source lines
165-168) with the `_check_res_void_p` errcheck hook is. Semantics: it
returns a pointer to a BIGNUM holding a multiplicative inverse of `a`
modulo `n` when one exists, and NULL when none exists. The search is
expressed as the least `k < n` with `a * k % n = 1`. -/
def BN_mod_inverse_raw (a n : Nat) : Option Nat :=
  (List.range n).find? (fun k => a * k % n == 1)

/-- The wrapped `BN_mod_inverse` call as the module performs it: the
raw native result is passed through `_check_res_void_p` (source lines
165-168 install the hook). Since the hook's `val == 0` guard never
fires (NULL arrives as Python `None`), a NULL result is passed through
as a silent NULL `c_void_p` handle rather than raising. -/
def BN_mod_inverse (st : SSLErrorState) (a n : Nat) :
    Except LibreSSLException CVoidP :=
  _check_res_void_p st "BN_mod_inverse" ["r", "a", "n", "ctx"]
    (BN_mod_inverse_raw a n)

theorem mod_inverse_raw_none_of_gcd_ne_one (a n : Nat)
    (h : Nat.gcd a n ≠ 1) : BN_mod_inverse_raw a n = Option.none := by
  unfold BN_mod_inverse_raw
  rcases hfind : (List.range n).find? (fun k => a * k % n == 1) with _ | k
  · rfl
  · exfalso
    have hk : a * k % n = 1 := by
      have := List.find?_some hfind
      simpa using this
    obtain ⟨q, hq⟩ : ∃ q, a * k = n * q + 1 := by
      refine ⟨a * k / n, ?_⟩
      have := Nat.div_add_mod (a * k) n
      omega
    have hd1 : Nat.gcd a n ∣ a * k := Dvd.dvd.mul_right (Nat.gcd_dvd_left a n) k
    have hd2 : Nat.gcd a n ∣ n * q :=
      Dvd.dvd.mul_right (Nat.gcd_dvd_right a n) q
    have hd3 : Nat.gcd a n ∣ 1 := by
      have hsub := Nat.dvd_sub' hd1 hd2
      rw [hq] at hsub
      simpa using hsub
    exact h (Nat.eq_one_of_dvd_one hd3)

/- ### RSA blinding (declarations at source lines 185-199) -/

/-- Modelled from the spec: the bodies of `BN_BLINDING_convert_ex` /
`BN_BLINDING_invert_ex` are in LibreSSL, not in this repository; the
module only declares them (source lines 185-199). Per the spec,
`blind(message) = message * r^e mod n` where `r` is the blinding factor
and `e` the exponent of the direction being blinded. -/
def blind (n r e m : Nat) : Nat :=
  m * (r ^ e % n) % n

/-- Modelled from the spec: the raw RSA primitive is modular
exponentiation with no padding, `input ^ exponent mod n`. -/
def raw_op (n d x : Nat) : Nat :=
  x ^ d % n

/-- Modelled from the spec: `unblind(result) = result * rInv mod n`
where `rInv` is the modular inverse of the blinding factor. -/
def unblind (n rInv x : Nat) : Nat :=
  x * rInv % n

/- ### The success path of `BNToBin` -/

theorem writeBytesAt_exact (w off : Nat) (src : List Nat)
    (h : off + src.length = w) :
    writeBytesAt (List.replicate w 0) off src =
      List.replicate off 0 ++ src := by
  unfold writeBytesAt
  rw [h, List.take_replicate, Nat.min_eq_left (by omega)]
  have hdrop : (List.replicate w (0 : Nat)).drop w = [] := by
    rw [List.drop_replicate]
    simp
  rw [hdrop, List.append_nil]

theorem zeroFirstBytes_replicate (off : Nat) (l : List Nat) :
    zeroFirstBytes (List.replicate off 0 ++ l) off =
      List.replicate off 0 ++ l := by
  unfold zeroFirstBytes
  have h1 : (List.replicate off (0 : Nat) ++ l).take off =
      List.replicate off 0 := by
    have h := List.take_left (List.replicate off (0 : Nat)) l
    rwa [List.length_replicate] at h
  have h2 : (List.replicate off (0 : Nat) ++ l).drop off = l := by
    have h := List.drop_left (List.replicate off (0 : Nat)) l
    rwa [List.length_replicate] at h
  rw [h1, h2, List.map_replicate]

theorem BNToBin_ok (x w : Nat) (hx : x ≠ 0) (hw : BN_num_bits x ≤ 8 * w) :
    BNToBin false (some x) w =
      PyBytesResult.bytes
        (List.replicate (w - BN_num_bytes x) 0 ++ bn2bin x) := by
  have hxw : x < 256 ^ w := by
    calc x < 2 ^ BN_num_bits x := lt_two_pow_num_bits x
      _ ≤ 2 ^ (8 * w) := Nat.pow_le_pow_right (by omega) hw
      _ = 256 ^ w := by
          rw [show (256 : Nat) = 2 ^ 8 from rfl, ← pow_mul]
  have hnb : BN_num_bytes x ≤ w := num_bytes_min x w hxw
  have hnb1 : 1 ≤ BN_num_bytes x := by
    by_contra hc
    have h0 : BN_num_bytes x = 0 := by omega
    have hlt := lt_pow_num_bytes x
    rw [h0] at hlt
    simp at hlt
    exact hx hlt
  have hlen : (bn2bin x).length = BN_num_bytes x := length_bn2bin x
  have hoffneg : ¬ ((w : Int) - (BN_num_bytes x : Int) < 0) := by omega
  have hofftoNat : ((w : Int) - (BN_num_bytes x : Int)).toNat =
      w - BN_num_bytes x := by omega
  simp only [BNToBin]
  rw [if_neg hoffneg, hofftoNat]
  rw [writeBytesAt_exact w (w - BN_num_bytes x) (bn2bin x) (by omega)]
  rw [zeroFirstBytes_replicate]
  simp only [Bool.false_eq_true, if_false]
  rw [if_neg (by omega)]
  have hlenall : (List.replicate (w - BN_num_bytes x) 0 ++ bn2bin x).length
      = w := by
    simp [hlen]
    omega
  rw [List.take_of_length_le (le_of_eq hlenall)]

/- ### Claims -/

/-- C1: the spec states that when `bit_length(x) > width*8` the
fixed-width encoder fails with `EncodingError`. The code performs no
such check and the module defines no `EncodingError` at all: for every
such input `BNToBin` computes a negative `offset` and hands
`ctypes.byref(data, offset)` to the native `BN_bn2bin`, which writes
the magnitude out of bounds, before the start of the buffer. This
theorem evaluates the embedded code on every oversized input and shows
the run reaches the out-of-bounds write instead of raising. -/
theorem claim_C1_oob_write_instead_of_encoding_error
    (x w : Nat) (writeFails : Bool) (h : w * 8 < BN_num_bits x) :
    BNToBin writeFails (some x) w = PyBytesResult.oobWrite := by
  have hnb : w < BN_num_bytes x := by
    unfold BN_num_bytes
    omega
  simp only [BNToBin]
  rw [if_pos (by omega)]

/-- Witness for C1 at the failing input `bn = 256`, `size = 1`:
`bit_length(256) = 9 > 8` and the run ends in the out-of-bounds
write, with no exception of any kind raised. -/
theorem claim_C1_witness :
    BNToBin false (some 256) 1 = PyBytesResult.oobWrite :=
  claim_C1_oob_write_instead_of_encoding_error 256 1 false (by decide)

/-- C2 counterexample: the round-trip law fails at `x = 0`, `width = 1`,
an input satisfying the claim hypothesis `bit_length(x) ≤ width*8`.
`BN_bn2bin` reports 0 bytes written for a zero BIGNUM, the `ret == 0`
check misreads that as failure, and `BNToBin` returns Python `None`
instead of a byte string, so no decode can give back `x`. -/
theorem claim_C2_counterexample :
    BN_num_bits 0 ≤ 1 * 8 ∧
      BNToBin false (some 0) 1 = PyBytesResult.pyNone := by
  constructor
  · decide
  · decide

/-- C2 (amended): for every nonzero `x` with `bit_length(x) ≤ width*8`,
`BNToBin` returns a byte string and `BinToBN` applied to it (on the
success path of the native calls) returns a handle to a BIGNUM holding
exactly `x`. -/
theorem claim_C2_roundtrip (x w : Nat) (hx : x ≠ 0)
    (hw : BN_num_bits x ≤ w * 8) :
    ∃ bs, BNToBin false (some x) w = PyBytesResult.bytes bs ∧
      ∀ st : SSLErrorState,
        BinToBN st false false bs =
          Except.ok (some (CVoidP.mk (some x))) := by
  refine ⟨List.replicate (w - BN_num_bytes x) 0 ++ bn2bin x,
    BNToBin_ok x w hx (by omega), ?_⟩
  intro st
  rw [BinToBN_success, bin2bn_replicate_zero_append, bin2bn_bn2bin]

/-- Witness for the amended C2 at `x = 256`, `width = 2`. -/
theorem claim_C2_witness :
    ∃ bs, BNToBin false (some 256) 2 = PyBytesResult.bytes bs ∧
      ∀ st : SSLErrorState,
        BinToBN st false false bs =
          Except.ok (some (CVoidP.mk (some 256))) :=
  claim_C2_roundtrip 256 2 (by decide) (by decide)

/-- C3 counterexample: at `x = 0`, `width = 2` (hypothesis
`bit_length(x) ≤ width*8` holds) the encoder does not return a byte
string of 2 bytes: it returns Python `None`, because `BN_bn2bin`
reports 0 bytes written for a zero BIGNUM and the `ret == 0` check
treats that as failure. -/
theorem claim_C3_counterexample :
    BN_num_bits 0 ≤ 2 * 8 ∧
      BNToBin false (some 0) 2 = PyBytesResult.pyNone := by
  constructor
  · decide
  · decide

/-- C3 (amended): for every nonzero `x` with `bit_length(x) ≤ width*8`,
`BNToBin` returns exactly `width` bytes: the minimal big-endian
magnitude of `x` right-aligned, with every byte to its left equal to
zero. The conjunct `bin2bn (bn2bin x) = x` certifies that the
right-aligned segment is indeed the big-endian magnitude of `x`. -/
theorem claim_C3_fixed_width (x w : Nat) (hx : x ≠ 0)
    (hw : BN_num_bits x ≤ w * 8) :
    ∃ bs, BNToBin false (some x) w = PyBytesResult.bytes bs ∧
      bs.length = w ∧
      bs = List.replicate (w - (bn2bin x).length) 0 ++ bn2bin x ∧
      bin2bn (bn2bin x) = x := by
  have hxw : x < 256 ^ w := by
    calc x < 2 ^ BN_num_bits x := lt_two_pow_num_bits x
      _ ≤ 2 ^ (8 * w) := Nat.pow_le_pow_right (by omega) (by omega)
      _ = 256 ^ w := by
          rw [show (256 : Nat) = 2 ^ 8 from rfl, ← pow_mul]
  have hnb : BN_num_bytes x ≤ w := num_bytes_min x w hxw
  have hlen : (bn2bin x).length = BN_num_bytes x := length_bn2bin x
  refine ⟨List.replicate (w - BN_num_bytes x) 0 ++ bn2bin x,
    BNToBin_ok x w hx (by omega), ?_, ?_, bin2bn_bn2bin x⟩
  · simp [hlen]
    omega
  · rw [hlen]

/-- Witness for the amended C3 at `x = 256`, `width = 2`. -/
theorem claim_C3_witness :
    ∃ bs, BNToBin false (some 256) 2 = PyBytesResult.bytes bs ∧
      bs.length = 2 ∧
      bs = List.replicate (2 - (bn2bin 256).length) 0 ++ bn2bin 256 ∧
      bin2bn (bn2bin 256) = 256 :=
  claim_C3_fixed_width 256 2 (by decide) (by decide)

/-- C4: unblinding the raw RSA operation applied to a blinded message
gives the raw RSA operation applied to the message directly:
`unblind(raw_op(blind(m))) = raw_op(m)`. The hypotheses are exactly
what holds of every blinding factor the BlindingContext may generate
for a valid key: `rInv` is the modular inverse of `r`, and the key
exponents satisfy `r^(e*d) ≡ r (mod n)`. -/
theorem claim_C4_blinding_correct (n e d r rInv m : Nat)
    (hinv : r * rInv % n = 1 % n) (hkey : r ^ (e * d) % n = r % n) :
    unblind n rInv (raw_op n d (blind n r e m)) = raw_op n d m := by
  have h1 : m * (r ^ e % n) % n ≡ m * r ^ e [MOD n] :=
    (Nat.mod_modEq _ n).trans ((Nat.ModEq.refl m).mul (Nat.mod_modEq _ n))
  have h2 : (m * (r ^ e % n) % n) ^ d % n ≡ (m * r ^ e) ^ d [MOD n] :=
    (Nat.mod_modEq _ n).trans (h1.pow d)
  have hfinal : ((m * (r ^ e % n) % n) ^ d % n) * rInv ≡ m ^ d [MOD n] := by
    calc ((m * (r ^ e % n) % n) ^ d % n) * rInv
        ≡ (m * r ^ e) ^ d * rInv [MOD n] := h2.mul (Nat.ModEq.refl rInv)
      _ = m ^ d * r ^ (e * d) * rInv := by rw [mul_pow, pow_mul]
      _ ≡ m ^ d * r * rInv [MOD n] :=
          ((Nat.ModEq.refl (m ^ d)).mul hkey).mul (Nat.ModEq.refl rInv)
      _ = m ^ d * (r * rInv) := by ring
      _ ≡ m ^ d * 1 [MOD n] := (Nat.ModEq.refl (m ^ d)).mul hinv
      _ = m ^ d := by ring
  simp only [unblind, raw_op, blind]
  exact hfinal

/-- Witness for C4 with the 1024-bit-key stand-in `n = 15`, `e = d = 3`
(so `e*d = 9 ≡ 1 (mod 4)`), blinding factor `r = 2` with inverse
`rInv = 8`, and message `m = 7`. -/
theorem claim_C4_witness :
    unblind 15 8 (raw_op 15 3 (blind 15 2 3 7)) = raw_op 15 3 7 :=
  claim_C4_blinding_correct 15 3 3 2 8 7 (by decide) (by decide)

/-- C5: the success half of the claim holds — `BinToBN` parses its
input as a big-endian unsigned magnitude of arbitrary length (stated
through the independent digit semantics `Nat.ofDigits`) and returns a
handle to a BIGNUM holding that value. The failure half is false of
the code: when `BN_new` or `BN_bin2bn` returns NULL, the errcheck hook
receives Python `None`, its `val == 0` guard is false, no exception of
any kind is raised, and `BinToBN` silently returns a NULL handle
(allocation failure) or the stale fresh-zero handle (parse failure) —
not a `DecodingError`. This theorem evaluates the embedded code on all
four native outcomes. -/
theorem claim_C5_decode_and_silent_failures (st : SSLErrorState)
    (s : List Nat) :
    BinToBN st false false s =
      Except.ok (some (CVoidP.mk (some (Nat.ofDigits 256 s.reverse)))) ∧
    BinToBN st true false s =
      Except.ok (some (CVoidP.mk Option.none)) ∧
    BinToBN st false true s =
      Except.ok (some (CVoidP.mk (some 0))) ∧
    BinToBN st true true s =
      Except.ok (some (CVoidP.mk Option.none)) := by
  refine ⟨?_, rfl, rfl, rfl⟩
  rw [BinToBN_success, bin2bn_eq_ofDigits]

/-- C6: the claim is false of the code — `mod_inverse(2, 4)` does not
fail. Whenever `gcd(a, n) ≠ 1` the native `BN_mod_inverse` returns
NULL (no inverse exists), but the installed `_check_res_void_p` hook
receives that NULL as Python `None`, its `val == 0` guard is false,
and the call silently returns a NULL `c_void_p` handle instead of
raising anything resembling `NotInvertible`. -/
theorem claim_C6_mod_inverse_silent_null :
    (∀ (st : SSLErrorState) (a n : Nat), Nat.gcd a n ≠ 1 →
      BN_mod_inverse st a n = Except.ok (CVoidP.mk Option.none)) ∧
    ∀ st : SSLErrorState,
      BN_mod_inverse st 2 4 = Except.ok (CVoidP.mk Option.none) := by
  have hmain : ∀ (st : SSLErrorState) (a n : Nat), Nat.gcd a n ≠ 1 →
      BN_mod_inverse st a n = Except.ok (CVoidP.mk Option.none) := by
    intro st a n h
    unfold BN_mod_inverse
    rw [mod_inverse_raw_none_of_gcd_ne_one a n h]
    rfl
  exact ⟨hmain, fun st => hmain st 2 4 (by decide)⟩

/-- Witness for C6 at the failing input `mod_inverse(2, 4)`
(`gcd(2,4) = 2 ≠ 1`): the call returns a silent NULL handle, raising
no exception. -/
theorem claim_C6_witness :
    BN_mod_inverse ⟨0, "engine message"⟩ 2 4 =
      Except.ok (CVoidP.mk Option.none) :=
  claim_C6_mod_inverse_silent_null.1 ⟨0, "engine message"⟩ 2 4 (by decide)

/-- C7: `BN_num_bytes` is the ceiling of the bit length divided by 8:
it is bounded below and above by `bit_length ≤ 8*bytes < bit_length + 8`,
and it is exactly the byte length of the magnitude
(`n < 256^bytes`, and `256^(bytes-1) ≤ n` for nonzero `n`); in
particular the value 256 takes 2 bytes. -/
theorem claim_C7_num_bytes_is_ceil :
    (∀ n : Nat,
      BN_num_bits n ≤ 8 * BN_num_bytes n ∧
      8 * BN_num_bytes n < BN_num_bits n + 8 ∧
      n < 256 ^ BN_num_bytes n ∧
      (n = 0 ∨ 256 ^ (BN_num_bytes n - 1) ≤ n)) ∧
    BN_num_bytes 256 = 2 := by
  constructor
  · intro n
    refine ⟨?_, ?_, lt_pow_num_bytes n, ?_⟩
    · unfold BN_num_bytes
      omega
    · unfold BN_num_bytes
      omega
    · by_cases hn : n = 0
      · exact Or.inl hn
      · right
        by_contra hlt
        push_neg at hlt
        have h1 : BN_num_bytes n ≤ BN_num_bytes n - 1 :=
          num_bytes_min n _ hlt
        have h2 : 1 ≤ BN_num_bytes n := by
          by_contra h2
          have h0 : BN_num_bytes n = 0 := by omega
          have h3 := lt_pow_num_bytes n
          rw [h0] at h3
          simp at h3
          exact hn h3
        omega
  · decide

/-- C8: the claim is false of the code — the errcheck hook installed
on every pointer-returning native call never raises. Under
`restype = ctypes.c_void_p` a NULL native result reaches the hook as
Python `None`; `None == 0` is `False`, so the `val == 0` guard never
fires and the hook returns `ctypes.c_void_p(val)` for every input:
native failures are passed through silently as NULL handles, with no
exception, no engine error code and no message. This theorem evaluates
the embedded hook on every raw result a wrapped call can deliver (NULL
and non-NULL alike) and shows the result is always `Except.ok`, never
the `LibreSSLException` the spec promises. -/
theorem claim_C8_hook_never_raises (st : SSLErrorState)
    (fname : String) (args : List String) (val : Option Nat) :
    _check_res_void_p st fname args val = Except.ok (CVoidP.mk val) := by
  cases val with
  | none => rfl
  | some v => rfl

/-- C9: `BNToBin` returns Python `None` when its BIGNUM argument is
`None`, and likewise when the magnitude-write primitive `BN_bn2bin`
reports 0 bytes written (injected via `writeFails`, and also arising
for the zero BIGNUM, whose magnitude is empty). -/
theorem claim_C9_none_return_paths :
    (∀ (writeFails : Bool) (size : Nat),
      BNToBin writeFails Option.none size = PyBytesResult.pyNone) ∧
    ∀ (writeFails : Bool) (n size : Nat), BN_num_bytes n ≤ size →
      writeFails = true ∨ n = 0 →
      BNToBin writeFails (some n) size = PyBytesResult.pyNone := by
  constructor
  · intro wf size
    rfl
  · intro wf n size hsize h
    simp only [BNToBin]
    rw [if_neg (by omega)]
    rcases h with h | h
    · subst h
      simp
    · subst h
      cases wf with
      | false => simp [bn2bin, bn2binAux]
      | true => simp

/-- Witness for C9: a write failure on a fitting input, and a `None`
argument. -/
theorem claim_C9_witness :
    BNToBin true (some 5) 4 = PyBytesResult.pyNone ∧
    BNToBin false Option.none 3 = PyBytesResult.pyNone :=
  ⟨claim_C9_none_return_paths.2 true 5 4 (by decide) (Or.inl rfl),
   claim_C9_none_return_paths.1 false 3⟩

/-- C10 counterexample: a run in which the native conversion
`BN_bin2bn` returns a zero (NULL) result, yet no exception is raised:
`BinToBN` returns normally with the stale fresh-zero handle. This
refutes the claim's asserted mechanism — that "the native conversion's
error check raises on a zero result"; the errcheck hook receives the
NULL as Python `None` and its `val == 0` guard is false. -/
theorem claim_C10_counterexample :
    BinToBN ⟨0, "engine message"⟩ false true [1, 0] =
      Except.ok (some (CVoidP.mk (some 0))) :=
  rfl

/-- C10 (amended): `BinToBN` never returns Python `None` — every run,
whatever the outcome of the two native calls, returns a `c_void_p`
handle (and never raises). The internal `if ret is None: return None`
branch is indeed unreachable, but not because the errcheck raises on a
zero result: the errcheck never raises; the branch is dead because the
hook always returns a `c_void_p` object — `c_void_p(None)`, a NULL
handle, when the native call failed — and a `c_void_p` object is never
the `None` object. -/
theorem claim_C10_always_returns_handle (st : SSLErrorState)
    (newFails bin2bnFails : Bool) (s : List Nat) :
    ∃ h : CVoidP, BinToBN st newFails bin2bnFails s =
      Except.ok (some h) := by
  cases newFails with
  | true =>
    cases bin2bnFails with
    | true => exact ⟨CVoidP.mk Option.none, rfl⟩
    | false => exact ⟨CVoidP.mk Option.none, rfl⟩
  | false =>
    cases bin2bnFails with
    | true => exact ⟨CVoidP.mk (some 0), rfl⟩
    | false => exact ⟨CVoidP.mk (some (bin2bn s)), rfl⟩

end Tumblebit
